import Mathlib

/-!
Shallow embedding of the toy RISC-V assembler / disassembler from
`src/main.rs`, together with proofs checking the specification's claims
about it.

Machine words are modelled as `Nat` (always `< 2^32` by construction);
Rust `i16` values are modelled as `Int` together with explicit
two's-complement reinterpretations; fallible code (Rust `panic!`) is
modelled with `Option` / `Except`.
-/

namespace Assembler

/-! ## Opcode constants (`main.rs` lines 6-16) -/

def OPCODE_HALT : Nat := 0
def OPCODE_ADD : Nat := 1
def OPCODE_ADDI : Nat := 2
def OPCODE_BNE : Nat := 3
def OPCODE_MUL : Nat := 4
def OPCODE_LUI : Nat := 5
def OPCODE_LW : Nat := 6
def OPCODE_SW : Nat := 7
def OPCODE_BLT : Nat := 8
def OPCODE_SLLI : Nat := 9
def OPCODE_SUB : Nat := 10

/-! ## Integer reinterpretations

`toU32 i` models the Rust cast `i as u32` for a signed value `i`
(two's-complement, so a sign-extension for `i16` inputs).
`i16ofBits n` models reading the low 16 bits of `n` as an `i16`
(the Rust cast `(x & 0xFFFF) as i16`). -/

def toU32 (i : Int) : Nat := (i % 4294967296).toNat

def i16ofBits (n : Nat) : Int :=
  if n % 65536 < 32768 then ((n % 65536 : Nat) : Int)
  else ((n % 65536 : Nat) : Int) - 65536

/-! ## Encoders (`main.rs` lines 20-103) -/

/-- A-type word: `0[31:21] rs2[20:16] rs1[15:11] rd[10:6] opcode[5:0]`
(`encode_a`, lines 22-29). Registers are masked to 5 bits. -/
def encode_a (opcode rd rs1 rs2 : Nat) : Nat :=
  ((0 : Nat) <<< 21) |||
  ((rs2 &&& 0x1F) <<< 16) |||
  ((rs1 &&& 0x1F) <<< 11) |||
  ((rd &&& 0x1F) <<< 6) |||
  (opcode &&& 0x3F)

/-- B-type word: `imm[31:16] rs1[15:11] rd[10:6] opcode[5:0]`
(`encode_b`, lines 33-42). -/
def encode_b (opcode rd rs1 : Nat) (imm : Int) : Nat :=
  (((toU32 imm) &&& 0xFFFF) <<< 16) |||
  ((rs1 &&& 0x1F) <<< 11) |||
  ((rd &&& 0x1F) <<< 6) |||
  (opcode &&& 0x3F)

/-- C-type word: `imm_high[31:21] rs1[20:16] rs2[15:11] imm_low[10:6]
opcode[5:0]` (`encode_c`, lines 46-58). Note the source does NOT mask
`rs1`/`rs2` here, unlike `encode_a`/`encode_b`. -/
def encode_c (opcode rs1 rs2 : Nat) (offset : Int) : Nat :=
  (((toU32 offset >>> 5) &&& 0x7FF) <<< 21) |||
  (rs1 <<< 16) |||
  (rs2 <<< 11) |||
  (((toU32 offset) &&& 0x1F) <<< 6) |||
  (opcode &&& 0x3F)

def encode_add (rd rs1 rs2 : Nat) : Nat := encode_a OPCODE_ADD rd rs1 rs2

def encode_mul (rd rs1 rs2 : Nat) : Nat := encode_a OPCODE_MUL rd rs1 rs2

def encode_addi (rd rs1 : Nat) (imm : Int) : Nat := encode_b OPCODE_ADDI rd rs1 imm

def encode_lui (rd : Nat) (imm : Int) : Nat := encode_b OPCODE_LUI rd 0 imm

def encode_lw (rd rs1 : Nat) (offset : Int) : Nat := encode_b OPCODE_LW rd rs1 offset

/-- `encode_bne` (lines 81-83): passes `rs1`, `rs2` through in order. -/
def encode_bne (rs1 rs2 : Nat) (offset : Int) : Nat := encode_c OPCODE_BNE rs1 rs2 offset

/-- `encode_sw` (lines 85-87): swaps the two registers before `encode_c`. -/
def encode_sw (rs1 rs2 : Nat) (offset : Int) : Nat := encode_c OPCODE_SW rs2 rs1 offset

/-- `encode_blt` (lines 89-91): swaps the two registers before `encode_c`. -/
def encode_blt (rs1 rs2 : Nat) (offset : Int) : Nat := encode_c OPCODE_BLT rs2 rs1 offset

def encode_slli (rd rs1 : Nat) (imm : Int) : Nat := encode_b OPCODE_SLLI rd rs1 imm

def encode_sub (rd rs1 rs2 : Nat) : Nat := encode_a OPCODE_SUB rd rs1 rs2

def encode_halt : Nat := 0

/-! ## Numeric token parsing (`parse_reg` lines 105-107, `parse_imm` lines 109-141)

Rust `panic!` on a malformed token is modelled as `none`. -/

def isDecDigit (c : Char) : Bool := decide (48 ≤ c.toNat ∧ c.toNat ≤ 57)

def isHexDig (c : Char) : Bool :=
  decide ((48 ≤ c.toNat ∧ c.toNat ≤ 57) ∨ (65 ≤ c.toNat ∧ c.toNat ≤ 70) ∨
    (97 ≤ c.toNat ∧ c.toNat ≤ 102))

def decVal (l : List Char) : Nat := l.foldl (fun a c => 10 * a + (c.toNat - 48)) 0

def hexDigVal (c : Char) : Nat :=
  if c.toNat ≤ 57 then c.toNat - 48
  else if c.toNat ≤ 70 then c.toNat - 55
  else c.toNat - 87

def hexVal (l : List Char) : Nat := l.foldl (fun a c => 16 * a + hexDigVal c) 0

/-- Digit run of an unsigned decimal numeral: nonempty, all decimal digits. -/
def decNat (l : List Char) : Option Nat :=
  if l ≠ [] ∧ l.all isDecDigit = true then some (decVal l) else none

/-- Digit run of a hexadecimal numeral: nonempty, all hex digits. -/
def hexNatOf (l : List Char) : Option Nat :=
  if l ≠ [] ∧ l.all isHexDig = true then some (hexVal l) else none

/-- `u8::from_str`: optional leading `+`, digits, value ≤ 255. -/
def decU8core (l : List Char) : Option Nat :=
  match decNat l with
  | none => none
  | some v => if v ≤ 255 then some v else none

def decU8 (l : List Char) : Option Nat :=
  match l with
  | [] => none
  | c :: r => if c = '+' then decU8core r else decU8core (c :: r)

/-- `parse_reg` (lines 105-107): drops the first character (`x`) and parses
the rest as a `u8`; any failure is the `invalid register` panic. -/
def parse_reg (reg : String) : Option Nat :=
  match reg.data with
  | [] => none
  | _ :: rest => decU8 rest

/-- Nonnegative side of `i16::from_str`. -/
def decPos (l : List Char) : Option Int :=
  match decNat l with
  | none => none
  | some v => if v ≤ 32767 then some ((v : Nat) : Int) else none

/-- Negative side of `i16::from_str` (magnitude up to 32768). -/
def decNegSide (l : List Char) : Option Int :=
  match decNat l with
  | none => none
  | some v => if v ≤ 32768 then some (-((v : Nat) : Int)) else none

/-- `i16::from_str`: optional sign, decimal digits, result in i16 range. -/
def parseDecI16 (l : List Char) : Option Int :=
  match l with
  | [] => none
  | c :: r =>
    if c = '+' then decPos r
    else if c = '-' then decNegSide r
    else decPos (c :: r)

/-- Nonnegative side of `i32::from_str_radix(_, 16)`. -/
def hexPos (l : List Char) : Option Int :=
  match hexNatOf l with
  | none => none
  | some v => if v ≤ 2147483647 then some ((v : Nat) : Int) else none

/-- Negative side of `i32::from_str_radix(_, 16)` (magnitude up to 2^31). -/
def hexNeg (l : List Char) : Option Int :=
  match hexNatOf l with
  | none => none
  | some v => if v ≤ 2147483648 then some (-((v : Nat) : Int)) else none

/-- `i32::from_str_radix(_, 16)`: optional sign, hex digits, i32 range. -/
def parseHexI32 (l : List Char) : Option Int :=
  match l with
  | [] => none
  | c :: r =>
    if c = '+' then hexPos r
    else if c = '-' then hexNeg r
    else hexPos (c :: r)

/-- The hexadecimal arm of `parse_imm` (lines 113-128): parse as `i32`;
if the value is outside the i16 range, truncate with `(value as u16) as i16`,
otherwise return `value as i16`. -/
def hexSide (l : List Char) : Option Int :=
  match parseHexI32 l with
  | none => none
  | some v =>
    if 32767 < v ∨ v < -32768 then some (i16ofBits ((v % 65536).toNat))
    else some v

def hexStart (l : List Char) : Bool :=
  match l with
  | a :: b :: _ => decide (a = '0' ∧ (b = 'x' ∨ b = 'X'))
  | _ => false

def plusStart (l : List Char) : Bool :=
  match l with
  | a :: _ => decide (a = '+')
  | [] => false

def parseImmChars (l : List Char) : Option Int :=
  if hexStart l = true then hexSide (l.drop 2)
  else if plusStart l = true then parseDecI16 (l.drop 1)
  else parseDecI16 l

def trimChars (l : List Char) : List Char :=
  ((l.dropWhile Char.isWhitespace).reverse.dropWhile Char.isWhitespace).reverse

/-- `parse_imm` (lines 109-141). -/
def parse_imm (s : String) : Option Int := parseImmChars (trimChars s.data)

/-! ## The assembler driver (`assemble`, lines 143-234) -/

/-- Failure modes of `assemble`; each Rust `panic!` site gets a constructor.
The token-naming syntax errors carry the offending token; `indexOutOfBounds`
is the panic raised by `parts[i]` on a too-short token list, which names no
token. -/
inductive AsmError where
  | indexOutOfBounds : AsmError
  | sliceOutOfBounds : AsmError
  | invalidReg : String → AsmError
  | invalidImm : String → AsmError
  | badMemOperand : String → AsmError
  | unknownMnemonic : String → AsmError
deriving DecidableEq

/-- `parts[i]` (Rust indexing panics when out of bounds). -/
def getTok (parts : List String) (i : Nat) : Except AsmError String :=
  match parts.get? i with
  | some t => Except.ok t
  | none => Except.error AsmError.indexOutOfBounds

def toReg (t : String) : Except AsmError Nat :=
  match parse_reg t with
  | some r => Except.ok r
  | none => Except.error (AsmError.invalidReg t)

def toImm (t : String) : Except AsmError Int :=
  match parse_imm t with
  | some v => Except.ok v
  | none => Except.error (AsmError.invalidImm t)

/-- `trim_end_matches(',')`. -/
def dropTrailingComma (t : String) : String :=
  String.mk ((t.data.reverse.dropWhile (fun c => decide (c = ','))).reverse)

/-- First index of `c` in `l` (Rust `str::find`). -/
def firstIdx (l : List Char) (c : Char) : Option Nat :=
  match l with
  | [] => none
  | a :: r => if a = c then some 0 else (firstIdx r c).map (· + 1)

/-- The `imm(reg)` memory-operand parse shared by the `lw`/`sw` arms
(lines 185-192 and 199-206): find `(` and `)`, parse the immediate before
`(` and the register between them. A backwards slice is the Rust slice
panic. Returns `(offset, rs1)`. -/
def memOperand (t : String) : Except AsmError (Int × Nat) :=
  match firstIdx t.data '(' with
  | none => Except.error (AsmError.badMemOperand t)
  | some op_i =>
    match firstIdx t.data ')' with
    | none => Except.error (AsmError.badMemOperand t)
    | some cl_i =>
      if cl_i < op_i + 1 then Except.error AsmError.sliceOutOfBounds
      else do
        let off ← toImm (String.mk (t.data.take op_i))
        let rs1 ← toReg (String.mk ((t.data.drop (op_i + 1)).take (cl_i - (op_i + 1))))
        pure (off, rs1)

/-- The per-line mnemonic dispatch of `assemble` (lines 150-231), given the
whitespace-split token list of one nonempty line. -/
def asmParts (parts : List String) : Except AsmError Nat :=
  match parts with
  | [] => Except.error AsmError.indexOutOfBounds
  | mn :: _ =>
    if mn = "add" then do
      let rd ← toReg (dropTrailingComma (← getTok parts 1))
      let rs1 ← toReg (dropTrailingComma (← getTok parts 2))
      let rs2 ← toReg (← getTok parts 3)
      pure (encode_add rd rs1 rs2)
    else if mn = "mul" then do
      let rd ← toReg (dropTrailingComma (← getTok parts 1))
      let rs1 ← toReg (dropTrailingComma (← getTok parts 2))
      let rs2 ← toReg (← getTok parts 3)
      pure (encode_mul rd rs1 rs2)
    else if mn = "addi" then do
      let rd ← toReg (dropTrailingComma (← getTok parts 1))
      let rs1 ← toReg (dropTrailingComma (← getTok parts 2))
      let imm ← toImm (← getTok parts 3)
      pure (encode_addi rd rs1 imm)
    else if mn = "bne" then do
      let rs1 ← toReg (dropTrailingComma (← getTok parts 1))
      let rs2 ← toReg (dropTrailingComma (← getTok parts 2))
      let offset ← toImm (← getTok parts 3)
      pure (encode_bne rs1 rs2 offset)
    else if mn = "lui" then do
      let rd ← toReg (dropTrailingComma (← getTok parts 1))
      let imm ← toImm (← getTok parts 2)
      pure (encode_lui rd imm)
    else if mn = "lw" then do
      let rd ← toReg (dropTrailingComma (← getTok parts 1))
      let mem ← memOperand (← getTok parts 2)
      pure (encode_lw rd mem.2 mem.1)
    else if mn = "sw" then do
      let rs2 ← toReg (dropTrailingComma (← getTok parts 1))
      let mem ← memOperand (← getTok parts 2)
      pure (encode_sw mem.2 rs2 mem.1)
    else if mn = "blt" then do
      let rs1 ← toReg (dropTrailingComma (← getTok parts 1))
      let rs2 ← toReg (dropTrailingComma (← getTok parts 2))
      let offset ← toImm (← getTok parts 3)
      pure (encode_blt rs1 rs2 offset)
    else if mn = "slli" then do
      let rd ← toReg (dropTrailingComma (← getTok parts 1))
      let rs1 ← toReg (dropTrailingComma (← getTok parts 2))
      let imm ← toImm (← getTok parts 3)
      pure (encode_slli rd rs1 imm)
    else if mn = "sub" then do
      let rd ← toReg (dropTrailingComma (← getTok parts 1))
      let rs1 ← toReg (dropTrailingComma (← getTok parts 2))
      let rs2 ← toReg (← getTok parts 3)
      pure (encode_sub rd rs1 rs2)
    else if mn = "halt" then
      pure encode_halt
    else Except.error (AsmError.unknownMnemonic mn)

/-- `split_whitespace`. -/
def splitWsAux : List Char → List Char → List (List Char)
  | [], acc => if acc = [] then [] else [acc.reverse]
  | c :: cs, acc =>
    if Char.isWhitespace c then
      (if acc = [] then splitWsAux cs [] else acc.reverse :: splitWsAux cs [])
    else splitWsAux cs (c :: acc)

def tokenizeWs (l : List Char) : List String :=
  (splitWsAux l []).map (fun cs => String.mk cs)

/-- One line of `assemble`: strip the `#` comment, trim, skip when empty
(`none`), otherwise dispatch on the tokens. -/
def asmLine (l : List Char) : Option (Except AsmError Nat) :=
  let t := trimChars (l.takeWhile (fun c => decide (c ≠ '#')))
  if t = [] then none else some (asmParts (tokenizeWs t))

/-- Split the input into lines at `'\n'`. -/
def splitNlAux : List Char → List Char → List (List Char)
  | [], acc => [acc.reverse]
  | c :: cs, acc =>
    if c = '\n' then acc.reverse :: splitNlAux cs []
    else splitNlAux cs (c :: acc)

def asmLines : List (List Char) → Except AsmError (List Nat)
  | [] => Except.ok []
  | l :: ls =>
    match asmLine l with
    | none => asmLines ls
    | some (Except.error e) => Except.error e
    | some (Except.ok w) => do
      let rest ← asmLines ls
      pure (w :: rest)

/-- `assemble` (lines 143-234): the whole-input assembler. -/
def assemble (input : String) : Except AsmError (List Nat) :=
  asmLines (splitNlAux input.data [])

/-! ## Decoders (`main.rs` lines 244-325) -/

def hexDigitChar (n : Nat) : Char :=
  if n < 10 then Char.ofNat (48 + n) else Char.ofNat (55 + n)

/-- `format!("{:08X}", w)` for a 32-bit word. -/
def hex8 (w : Nat) : String :=
  String.mk [hexDigitChar ((w >>> 28) &&& 15), hexDigitChar ((w >>> 24) &&& 15),
    hexDigitChar ((w >>> 20) &&& 15), hexDigitChar ((w >>> 16) &&& 15),
    hexDigitChar ((w >>> 12) &&& 15), hexDigitChar ((w >>> 8) &&& 15),
    hexDigitChar ((w >>> 4) &&& 15), hexDigitChar (w &&& 15)]

/-- `decode_a_type` (lines 247-259). -/
def decode_a_type (instr : Nat) : String :=
  let opcode := instr &&& 0x3F
  let rd := (instr >>> 6) &&& 0x1F
  let rs1 := (instr >>> 11) &&& 0x1F
  let rs2 := (instr >>> 16) &&& 0x1F
  if opcode = OPCODE_ADD then
    "add x" ++ Nat.repr rd ++ ", x" ++ Nat.repr rs1 ++ ", x" ++ Nat.repr rs2
  else if opcode = OPCODE_MUL then
    "mul x" ++ Nat.repr rd ++ ", x" ++ Nat.repr rs1 ++ ", x" ++ Nat.repr rs2
  else if opcode = OPCODE_SUB then
    "sub x" ++ Nat.repr rd ++ ", x" ++ Nat.repr rs1 ++ ", x" ++ Nat.repr rs2
  else "未知A型指令: 0x" ++ hex8 instr

/-- `decode_b_type` (lines 262-275); the immediate is bits 31:16 read as i16. -/
def decode_b_type (instr : Nat) : String :=
  let opcode := instr &&& 0x3F
  let rd := (instr >>> 6) &&& 0x1F
  let rs1 := (instr >>> 11) &&& 0x1F
  let imm := i16ofBits ((instr >>> 16) &&& 0xFFFF)
  if opcode = OPCODE_ADDI then
    "addi x" ++ Nat.repr rd ++ ", x" ++ Nat.repr rs1 ++ ", " ++ Int.repr imm
  else if opcode = OPCODE_LUI then
    "lui x" ++ Nat.repr rd ++ ", " ++ Int.repr imm
  else if opcode = OPCODE_LW then
    "lw x" ++ Nat.repr rd ++ ", " ++ Int.repr imm ++ "(x" ++ Nat.repr rs1 ++ ")"
  else if opcode = OPCODE_SLLI then
    "slli x" ++ Nat.repr rd ++ ", x" ++ Nat.repr rs1 ++ ", " ++ Int.repr imm
  else "未知B型指令: 0x" ++ hex8 instr

/-- C-type immediate reconstruction: `((imm_high << 5) | imm_low) as i16`
(line 286). -/
def decode_c_imm (instr : Nat) : Int :=
  i16ofBits ((((instr >>> 21) &&& 0x7FF) <<< 5) ||| ((instr >>> 6) &&& 0x1F))

/-- `decode_c_type` (lines 278-303); `rs1` names bits 20:16 and `rs2`
bits 15:11, exactly as in the source. -/
def decode_c_type (instr : Nat) : String :=
  let opcode := instr &&& 0x3F
  let rs2 := (instr >>> 11) &&& 0x1F
  let rs1 := (instr >>> 16) &&& 0x1F
  let imm := decode_c_imm instr
  if opcode = OPCODE_BNE then
    "bne x" ++ Nat.repr rs1 ++ ", x" ++ Nat.repr rs2 ++ ", " ++ Int.repr imm
  else if opcode = OPCODE_SW then
    "sw x" ++ Nat.repr rs2 ++ ", " ++ Int.repr imm ++ "(x" ++ Nat.repr rs1 ++ ")"
  else if opcode = OPCODE_BLT then
    "blt x" ++ Nat.repr rs1 ++ ", x" ++ Nat.repr rs2 ++ ", " ++ Int.repr imm
  else "未知C型指令: 0x" ++ hex8 instr

/-- `decode_halt` (lines 306-312): the zero word is `halt`, any other
opcode-0 word is unknown. -/
def decode_halt (instr : Nat) : String :=
  if instr = 0 then "halt" else "未知指令: 0x" ++ hex8 instr

/-- `decode_instruction` (lines 315-325): dispatch on `instr & 0x3F`. -/
def decode_instruction (instr : Nat) : String :=
  if instr &&& 0x3F = OPCODE_HALT then decode_halt instr
  else if instr &&& 0x3F = OPCODE_ADD ∨ instr &&& 0x3F = OPCODE_MUL ∨
    instr &&& 0x3F = OPCODE_SUB then decode_a_type instr
  else if instr &&& 0x3F = OPCODE_ADDI ∨ instr &&& 0x3F = OPCODE_LUI ∨
    instr &&& 0x3F = OPCODE_LW ∨ instr &&& 0x3F = OPCODE_SLLI then decode_b_type instr
  else if instr &&& 0x3F = OPCODE_BNE ∨ instr &&& 0x3F = OPCODE_SW ∨
    instr &&& 0x3F = OPCODE_BLT then decode_c_type instr
  else "未知指令: 0x" ++ hex8 instr

/-! ## Arithmetic bridge lemmas for the bit-level layouts -/

/-- Disjoint bitwise or is addition: if the low `n` bits of `a` are clear
and `b` fits in `n` bits, then `a ||| b = a + b`. -/
theorem lorAdd {a b : Nat} (n : Nat) (ha : a % 2 ^ n = 0) (hb : b < 2 ^ n) :
    a ||| b = a + b := by
  obtain ⟨c, rfl⟩ := Nat.dvd_of_mod_eq_zero ha
  exact (Nat.mul_add_lt_is_or hb c).symm

/-- `lorAdd` with the power of two given as a literal. -/
theorem lorAddPow (p : Nat) {a b : Nat} (n : Nat) (hp : p = 2 ^ n) (ha : a % p = 0)
    (hb : b < p) : a ||| b = a + b := by
  subst hp
  exact lorAdd n ha hb

theorem and31 (x : Nat) : x &&& 31 = x % 32 := by
  have h := Nat.and_pow_two_sub_one_eq_mod x 5
  norm_num at h
  exact h

theorem and63 (x : Nat) : x &&& 63 = x % 64 := by
  have h := Nat.and_pow_two_sub_one_eq_mod x 6
  norm_num at h
  exact h

theorem and2047 (x : Nat) : x &&& 2047 = x % 2048 := by
  have h := Nat.and_pow_two_sub_one_eq_mod x 11
  norm_num at h
  exact h

theorem and65535 (x : Nat) : x &&& 65535 = x % 65536 := by
  have h := Nat.and_pow_two_sub_one_eq_mod x 16
  norm_num at h
  exact h

theorem shl5 (x : Nat) : x <<< 5 = x * 32 := by
  rw [Nat.shiftLeft_eq]

theorem shl6 (x : Nat) : x <<< 6 = x * 64 := by
  rw [Nat.shiftLeft_eq]

theorem shl11 (x : Nat) : x <<< 11 = x * 2048 := by
  rw [Nat.shiftLeft_eq]

theorem shl16 (x : Nat) : x <<< 16 = x * 65536 := by
  rw [Nat.shiftLeft_eq]

theorem shl21 (x : Nat) : x <<< 21 = x * 2097152 := by
  rw [Nat.shiftLeft_eq]

theorem shr5 (x : Nat) : x >>> 5 = x / 32 := by
  rw [Nat.shiftRight_eq_div_pow]

theorem shr6 (x : Nat) : x >>> 6 = x / 64 := by
  rw [Nat.shiftRight_eq_div_pow]

theorem shr11 (x : Nat) : x >>> 11 = x / 2048 := by
  rw [Nat.shiftRight_eq_div_pow]

theorem shr16 (x : Nat) : x >>> 16 = x / 65536 := by
  rw [Nat.shiftRight_eq_div_pow]

theorem shr21 (x : Nat) : x >>> 21 = x / 2097152 := by
  rw [Nat.shiftRight_eq_div_pow]

/-- The A-type word as plain arithmetic. -/
theorem encode_a_eq (opcode rd rs1 rs2 : Nat) :
    encode_a opcode rd rs1 rs2
      = (rs2 % 32) * 65536 + (rs1 % 32) * 2048 + (rd % 32) * 64 + opcode % 64 := by
  unfold encode_a
  rw [Nat.zero_shiftLeft, Nat.zero_or, and31, and31, and31, and63, shl16, shl11, shl6]
  have q1 : rs2 % 32 * 65536 ||| rs1 % 32 * 2048
      = rs2 % 32 * 65536 + rs1 % 32 * 2048 :=
    lorAddPow 65536 16 (by norm_num) (by omega) (by omega)
  rw [q1]
  have q2 : rs2 % 32 * 65536 + rs1 % 32 * 2048 ||| rd % 32 * 64
      = rs2 % 32 * 65536 + rs1 % 32 * 2048 + rd % 32 * 64 :=
    lorAddPow 2048 11 (by norm_num) (by omega) (by omega)
  rw [q2]
  exact lorAddPow 64 6 (by norm_num) (by omega) (by omega)

/-- The B-type word as plain arithmetic. -/
theorem encode_b_eq (opcode rd rs1 : Nat) (imm : Int) :
    encode_b opcode rd rs1 imm
      = (toU32 imm % 65536) * 65536 + (rs1 % 32) * 2048 + (rd % 32) * 64 + opcode % 64 := by
  unfold encode_b
  rw [and65535, and31, and31, and63, shl16, shl11, shl6]
  have q1 : toU32 imm % 65536 * 65536 ||| rs1 % 32 * 2048
      = toU32 imm % 65536 * 65536 + rs1 % 32 * 2048 :=
    lorAddPow 65536 16 (by norm_num) (by omega) (by omega)
  rw [q1]
  have q2 : toU32 imm % 65536 * 65536 + rs1 % 32 * 2048 ||| rd % 32 * 64
      = toU32 imm % 65536 * 65536 + rs1 % 32 * 2048 + rd % 32 * 64 :=
    lorAddPow 2048 11 (by norm_num) (by omega) (by omega)
  rw [q2]
  exact lorAddPow 64 6 (by norm_num) (by omega) (by omega)

/-- The C-type word as plain arithmetic, for in-range register fields. -/
theorem encode_c_eq (opcode rs1 rs2 : Nat) (offset : Int)
    (h1 : rs1 < 32) (h2 : rs2 < 32) :
    encode_c opcode rs1 rs2 offset
      = (toU32 offset / 32 % 2048) * 2097152 + rs1 * 65536 + rs2 * 2048 +
        (toU32 offset % 32) * 64 + opcode % 64 := by
  unfold encode_c
  rw [shr5, and2047, and31, and63, shl21, shl16, shl11, shl6]
  have q1 : toU32 offset / 32 % 2048 * 2097152 ||| rs1 * 65536
      = toU32 offset / 32 % 2048 * 2097152 + rs1 * 65536 :=
    lorAddPow 2097152 21 (by norm_num) (by omega) (by omega)
  rw [q1]
  have q2 : toU32 offset / 32 % 2048 * 2097152 + rs1 * 65536 ||| rs2 * 2048
      = toU32 offset / 32 % 2048 * 2097152 + rs1 * 65536 + rs2 * 2048 :=
    lorAddPow 65536 16 (by norm_num) (by omega) (by omega)
  rw [q2]
  have q3 : toU32 offset / 32 % 2048 * 2097152 + rs1 * 65536 + rs2 * 2048
        ||| toU32 offset % 32 * 64
      = toU32 offset / 32 % 2048 * 2097152 + rs1 * 65536 + rs2 * 2048 +
        toU32 offset % 32 * 64 :=
    lorAddPow 2048 11 (by norm_num) (by omega) (by omega)
  rw [q3]
  exact lorAddPow 64 6 (by norm_num) (by omega) (by omega)

/-- The C-type immediate reconstruction as plain arithmetic. -/
theorem decode_c_imm_eq (w : Nat) :
    decode_c_imm w = i16ofBits ((w / 2097152 % 2048) * 32 + w / 64 % 32) := by
  unfold decode_c_imm
  rw [shr21, and2047, shr6, and31, shl5]
  congr 1
  exact lorAddPow 32 5 (by norm_num) (by omega) (by omega)

theorem i16ofBits_mod (n : Nat) : i16ofBits (n % 65536) = i16ofBits n := by
  unfold i16ofBits
  have h : n % 65536 % 65536 = n % 65536 := by omega
  rw [h]

/-! ## Character-class and trimming lemmas -/

theorem decDigit_ne {c d : Char} (h : isDecDigit c = true)
    (hd : isDecDigit d = false) : c ≠ d := by
  intro he
  rw [he] at h
  rw [h] at hd
  exact absurd hd (by decide)

theorem hexDig_ne {c d : Char} (h : isHexDig c = true)
    (hd : isHexDig d = false) : c ≠ d := by
  intro he
  rw [he] at h
  rw [h] at hd
  exact absurd hd (by decide)

theorem decDigit_not_ws {c : Char} (h : isDecDigit c = true) :
    Char.isWhitespace c = false := by
  have h1 : c ≠ ' ' := decDigit_ne h (by decide)
  have h2 : c ≠ '\t' := decDigit_ne h (by decide)
  have h3 : c ≠ '\r' := decDigit_ne h (by decide)
  have h4 : c ≠ '\n' := decDigit_ne h (by decide)
  simp [Char.isWhitespace, h1, h2, h3, h4]

theorem hexDig_not_ws {c : Char} (h : isHexDig c = true) :
    Char.isWhitespace c = false := by
  have h1 : c ≠ ' ' := hexDig_ne h (by decide)
  have h2 : c ≠ '\t' := hexDig_ne h (by decide)
  have h3 : c ≠ '\r' := hexDig_ne h (by decide)
  have h4 : c ≠ '\n' := hexDig_ne h (by decide)
  simp [Char.isWhitespace, h1, h2, h3, h4]

theorem dropWhileAll {p : Char → Bool} {l : List Char}
    (h : ∀ c ∈ l, p c = false) : List.dropWhile p l = l := by
  cases l with
  | nil => rfl
  | cons a r => simp [List.dropWhile_cons, h a (by simp)]

theorem trim_eq_self {l : List Char}
    (h : ∀ c ∈ l, Char.isWhitespace c = false) : trimChars l = l := by
  unfold trimChars
  rw [dropWhileAll h]
  rw [dropWhileAll (fun c hc => h c (List.mem_reverse.mp hc))]
  exact List.reverse_reverse l

/-! ## A string starting with the unknown-instruction marker is not `halt` -/

theorem unk_ne_halt (s : String) : ("未知指令: 0x" ++ s) ≠ "halt" := by
  intro h
  have h1 : ("未知指令: 0x" ++ s).data.head? = some '未' := by
    cases s
    rfl
  rw [h] at h1
  exact absurd h1 (by decide)

/-! ## Claim theorems -/

/-- C1 (code bug): the encode/decode round trip fails for `sw` and `blt`.
Assembling `sw x2, 8(x1)` yields the word 0x20A07, whose decoding is
`sw x1, 8(x2)` — the value and base registers come back swapped; likewise
`blt x4, x5, 16` decodes to `blt x5, x4, 16`. The encoder places the
second-parsed register at bits 20:16 while the decoder prints bits 15:11
first, so `decode(encode(line)) ≠ line` exactly on the claim's own example
lines. -/
theorem C1_roundtrip_fails_for_sw_blt :
    assemble "sw x2, 8(x1)" = Except.ok [0x20A07] ∧
    decode_instruction 0x20A07 = "sw x1, 8(x2)" ∧
    "sw x1, 8(x2)" ≠ "sw x2, 8(x1)" ∧
    assemble "blt x4, x5, 16" = Except.ok [0x52408] ∧
    decode_instruction 0x52408 = "blt x5, x4, 16" ∧
    "blt x5, x4, 16" ≠ "blt x4, x5, 16" :=
  ⟨rfl, rfl, by decide, rfl, rfl, by decide⟩

/-- C2 (code bug): the word assembled from `sw x2, 8(x1)` (base `x1`,
value `x2`) carries the VALUE register 2 at bits 20:16 and the BASE
register 1 at bits 15:11 — the opposite of the claimed (and the decoder's)
field assignment. -/
theorem C2_sw_encoded_field_placement :
    assemble "sw x2, 8(x1)" = Except.ok [0x20A07] ∧
    ((0x20A07 : Nat) >>> 16) &&& 0x1F = 2 ∧
    ((0x20A07 : Nat) >>> 11) &&& 0x1F = 1 :=
  ⟨rfl, by decide, by decide⟩

/-- C4 (counterexample): assembling `bne x3, x2, -8` yields
`11111111111_00011_00010_11000_000011` = 0xFFE31603, not the claimed
`11111111111_00010_00011_11000_000011` = 0xFFE21E03: the code puts the
FIRST operand 3 at bits 20:16 and the second operand 2 at bits 15:11. -/
theorem C4_bne_word_counterexample :
    assemble "bne x3, x2, -8" = Except.ok [0xFFE31603] ∧
    (0xFFE31603 : Nat) ≠ 0xFFE21E03 :=
  ⟨rfl, by decide⟩

/-- C4 (amended): assembling `bne x3, x2, -8` yields exactly the word
whose fields read `imm_high = 11111111111`, `bits 20:16 = 00011` (first
operand 3), `bits 15:11 = 00010` (second operand 2), `imm_low = 11000`,
`opcode = 000011`. -/
theorem C4_bne_word_amended :
    assemble "bne x3, x2, -8" = Except.ok [0xFFE31603] ∧
    (0xFFE31603 : Nat) >>> 21 = 0x7FF ∧
    ((0xFFE31603 : Nat) >>> 16) &&& 0x1F = 3 ∧
    ((0xFFE31603 : Nat) >>> 11) &&& 0x1F = 2 ∧
    ((0xFFE31603 : Nat) >>> 6) &&& 0x1F = 24 ∧
    (0xFFE31603 : Nat) &&& 0x3F = 3 :=
  ⟨rfl, by decide, by decide, by decide, by decide, by decide⟩

/-- C5 (counterexample): assembling `addi x1, x0, 10` yields 0x000A0042,
not the claimed 0x000A0002 (whose rd field is 0: it decodes to
`addi x0, x0, 10`, not `addi x1, x0, 10`). -/
theorem C5_addi_word_counterexample :
    assemble "addi x1, x0, 10" = Except.ok [0x000A0042] ∧
    (0x000A0042 : Nat) ≠ 0x000A0002 ∧
    decode_instruction 0x000A0002 = "addi x0, x0, 10" :=
  ⟨rfl, by decide, rfl⟩

/-- C5 (amended): assembling `addi x1, x0, 10` yields exactly 0x000A0042
(imm = 10 at bits 31:16, rs1 = 0, rd = 1, opcode = 2), and decoding
0x000A0042 prints `addi x1, x0, 10`. -/
theorem C5_addi_word_amended :
    assemble "addi x1, x0, 10" = Except.ok [0x000A0042] ∧
    decode_instruction 0x000A0042 = "addi x1, x0, 10" :=
  ⟨rfl, rfl⟩

/-- C10: a recognized mnemonic with too few operands fails on the
out-of-bounds token index (`parts[3]`), not with a token-naming syntax
error: `add x1, x2` assembles to the `indexOutOfBounds` panic, which
carries no offending token (unlike `invalidReg`/`invalidImm`/
`unknownMnemonic`). -/
theorem C10_missing_operand_index_panic :
    assemble "add x1, x2" = Except.error AsmError.indexOutOfBounds := rfl

/-- C7 (counterexample): register parsing accepts the out-of-range numeral
`x32`, and the C-type encoding path does NOT mask it to its low 5 bits:
`encode_bne 32 0 0` differs from `encode_bne (32 % 32) 0 0` and the stray
bit lands in the imm_high field (bits 31:21), which should be 0 for
offset 0. -/
theorem C7_unmasked_register_counterexample :
    parse_reg "x32" = some 32 ∧
    encode_bne 32 0 0 ≠ encode_bne (32 % 32) 0 0 ∧
    encode_bne 32 0 0 >>> 21 ≠ 0 :=
  ⟨rfl, by decide, by decide⟩

/-- C7 (amended): the A-type and B-type encoding paths mask every register
to its low 5 bits (an out-of-range register truncates and never disturbs
other fields), but the C-type path does not mask: an accepted out-of-range
register numeral such as 32 spills into the adjacent imm_high field there. -/
theorem C7_register_masking_amended :
    (∀ opcode rd rs1 rs2 : Nat,
      (encode_a opcode rd rs1 rs2 >>> 16) &&& 0x1F = rs2 % 32 ∧
      (encode_a opcode rd rs1 rs2 >>> 11) &&& 0x1F = rs1 % 32 ∧
      (encode_a opcode rd rs1 rs2 >>> 6) &&& 0x1F = rd % 32 ∧
      encode_a opcode rd rs1 rs2 >>> 21 = 0) ∧
    (∀ (opcode rd rs1 : Nat) (imm : Int),
      (encode_b opcode rd rs1 imm >>> 11) &&& 0x1F = rs1 % 32 ∧
      (encode_b opcode rd rs1 imm >>> 6) &&& 0x1F = rd % 32) ∧
    (parse_reg "x32" = some 32 ∧ encode_bne 32 0 0 >>> 21 ≠ 0) := by
  refine ⟨fun opcode rd rs1 rs2 => ?_, fun opcode rd rs1 imm => ?_, by decide⟩
  · rw [encode_a_eq, shr16, shr11, shr6, shr21, and31, and31, and31]
    refine ⟨by omega, by omega, by omega, by omega⟩
  · rw [encode_b_eq, shr11, shr6, and31, and31]
    exact ⟨by omega, by omega⟩

/-- C3: for registers 0-31 and any 16-bit offset, `encode_bne rs1 rs2 off`
places `rs1` (the first text operand) at bits 20:16 and `rs2` at bits
15:11, while `encode_blt rs1 rs2 off` places `rs2` at bits 20:16 and `rs1`
at bits 15:11 — the inverse of bne. -/
theorem C3_bne_blt_operand_fields (rs1 rs2 : Nat) (off : Int)
    (h1 : rs1 < 32) (h2 : rs2 < 32)
    (h3 : -32768 ≤ off) (h4 : off ≤ 32767) :
    (encode_bne rs1 rs2 off >>> 16) &&& 0x1F = rs1 ∧
    (encode_bne rs1 rs2 off >>> 11) &&& 0x1F = rs2 ∧
    (encode_blt rs1 rs2 off >>> 16) &&& 0x1F = rs2 ∧
    (encode_blt rs1 rs2 off >>> 11) &&& 0x1F = rs1 := by
  unfold encode_bne encode_blt
  rw [encode_c_eq OPCODE_BNE rs1 rs2 off h1 h2, encode_c_eq OPCODE_BLT rs2 rs1 off h2 h1]
  rw [shr16, shr11, and31, and31, and31, and31]
  refine ⟨by omega, by omega, by omega, by omega⟩

/-- C3 witness: the fields at the claim's example inputs
`encode_bne 3 8 (-28)` and `encode_blt 5 6 12`. -/
theorem C3_bne_blt_operand_fields_witness :
    ((encode_bne 3 8 (-28) >>> 16) &&& 0x1F = 3 ∧
      (encode_bne 3 8 (-28) >>> 11) &&& 0x1F = 8 ∧
      (encode_blt 3 8 (-28) >>> 16) &&& 0x1F = 8 ∧
      (encode_blt 3 8 (-28) >>> 11) &&& 0x1F = 3) ∧
    ((encode_bne 5 6 12 >>> 16) &&& 0x1F = 5 ∧
      (encode_bne 5 6 12 >>> 11) &&& 0x1F = 6 ∧
      (encode_blt 5 6 12 >>> 16) &&& 0x1F = 6 ∧
      (encode_blt 5 6 12 >>> 11) &&& 0x1F = 5) :=
  ⟨C3_bne_blt_operand_fields 3 8 (-28) (by decide) (by decide) (by decide) (by decide),
    C3_bne_blt_operand_fields 5 6 12 (by decide) (by decide) (by decide) (by decide)⟩

/-- C8: the C-type immediate handling is sign-exact — for any opcode,
registers 0-31 and any offset in the signed 16-bit range, splitting the
offset into the 11-bit high part (bits 31:21) and the 5-bit low part
(bits 10:6) and re-assembling `(imm_high <<< 5) ||| imm_low` as a signed
16-bit value recovers the offset exactly. -/
theorem C8_c_type_imm_roundtrip (opcode rs1 rs2 : Nat) (off : Int)
    (h1 : rs1 < 32) (h2 : rs2 < 32)
    (h3 : -32768 ≤ off) (h4 : off ≤ 32767) :
    decode_c_imm (encode_c opcode rs1 rs2 off) = off := by
  rw [decode_c_imm_eq, encode_c_eq opcode rs1 rs2 off h1 h2]
  have hhi : (toU32 off / 32 % 2048 * 2097152 + rs1 * 65536 + rs2 * 2048 +
      toU32 off % 32 * 64 + opcode % 64) / 2097152 % 2048 = toU32 off / 32 % 2048 := by
    omega
  have hlo : (toU32 off / 32 % 2048 * 2097152 + rs1 * 65536 + rs2 * 2048 +
      toU32 off % 32 * 64 + opcode % 64) / 64 % 32 = toU32 off % 32 := by
    omega
  rw [hhi, hlo]
  have hcombine : toU32 off / 32 % 2048 * 32 + toU32 off % 32 = toU32 off % 65536 := by
    omega
  rw [hcombine, i16ofBits_mod]
  unfold i16ofBits toU32
  split <;> omega

/-- C8 witness: encoding offset `-8` (as in `bne`) then decoding recovers
`-8` exactly. -/
theorem C8_c_type_imm_roundtrip_witness :
    decode_c_imm (encode_c 3 1 2 (-8)) = -8 :=
  C8_c_type_imm_roundtrip 3 1 2 (-8) (by decide) (by decide) (by decide) (by decide)

/-- C9: encoding `halt` yields the word 0; decoding 0 yields `halt`; and
any nonzero 32-bit word whose opcode field (low 6 bits) is 0 decodes to
the unknown-instruction result, never to `halt`. -/
theorem C9_halt_zero_word :
    assemble "halt" = Except.ok [0] ∧
    decode_instruction 0 = "halt" ∧
    ∀ w : Nat, w < 4294967296 → w ≠ 0 → w &&& 0x3F = 0 →
      decode_instruction w ≠ "halt" := by
  refine ⟨rfl, rfl, fun w hlt hw hop => ?_⟩
  unfold decode_instruction
  rw [hop]
  norm_num [OPCODE_HALT]
  unfold decode_halt
  rw [if_neg hw]
  exact unk_ne_halt (hex8 w)

/-- The hex arm truncates instead of failing for values above the i16
range (but within i32). -/
theorem hexSide_of_big {l : List Char} (hne : l ≠ [])
    (hall : l.all isHexDig = true) (hlo : 32768 ≤ hexVal l)
    (hhi : hexVal l ≤ 2147483647) :
    hexSide l = some (i16ofBits (hexVal l)) := by
  cases l with
  | nil => exact absurd rfl hne
  | cons d r =>
    have hd : isHexDig d = true := by
      have h := List.all_eq_true.mp hall d (by simp)
      simpa using h
    have hparse : parseHexI32 (d :: r) = some ((hexVal (d :: r) : Nat) : Int) := by
      simp only [parseHexI32]
      rw [if_neg (hexDig_ne hd (by decide)), if_neg (hexDig_ne hd (by decide))]
      unfold hexPos hexNatOf
      rw [if_pos ⟨hne, hall⟩]
      exact if_pos hhi
    unfold hexSide
    rw [hparse]
    show (if 32767 < ((hexVal (d :: r) : Nat) : Int) ∨
        ((hexVal (d :: r) : Nat) : Int) < -32768 then
        some (i16ofBits (((hexVal (d :: r) : Nat) : Int) % 65536).toNat)
      else some ((hexVal (d :: r) : Nat) : Int)) = some (i16ofBits (hexVal (d :: r)))
    rw [if_pos (Or.inl (by omega))]
    have ht : ((((hexVal (d :: r) : Nat) : Int)) % 65536).toNat
        = hexVal (d :: r) % 65536 := by omega
    rw [ht, i16ofBits_mod]

/-- The decimal arm of `i16` parsing fails (Rust panics) above the i16
range. -/
theorem parseDecI16_of_big {l : List Char} (hne : l ≠ [])
    (hall : l.all isDecDigit = true) (hlo : 32767 < decVal l) :
    parseDecI16 l = none := by
  cases l with
  | nil => exact absurd rfl hne
  | cons d r =>
    have hd : isDecDigit d = true := by
      have h := List.all_eq_true.mp hall d (by simp)
      simpa using h
    simp only [parseDecI16]
    rw [if_neg (decDigit_ne hd (by decide)), if_neg (decDigit_ne hd (by decide))]
    unfold decPos decNat
    rw [if_pos ⟨hne, hall⟩]
    show (if decVal (d :: r) ≤ 32767 then some ((decVal (d :: r) : Nat) : Int)
      else none) = none
    exact if_neg (by omega)

/-- C6 (counterexample): the decimal immediate token `40000` denotes a
value outside the signed 16-bit range, and parsing FAILS on it (the Rust
code panics with `invalid decimal immediate`) instead of truncating. -/
theorem C6_decimal_overflow_counterexample : parse_imm "40000" = none := rfl

/-- C6 (amended): hexadecimal immediate tokens outside the signed 16-bit
range but within the signed 32-bit range are silently truncated to their
low 16 bits reinterpreted as signed; decimal tokens outside the signed
16-bit range are rejected with an invalid-immediate failure, as are
hexadecimal tokens outside the signed 32-bit range. -/
theorem C6_overflow_truncation_amended :
    (∀ ds : List Char, ds ≠ [] → ds.all isHexDig = true →
      32768 ≤ hexVal ds → hexVal ds ≤ 2147483647 →
      parse_imm (String.mk ('0' :: 'x' :: ds)) = some (i16ofBits (hexVal ds))) ∧
    (∀ ds : List Char, ds ≠ [] → ds.all isDecDigit = true →
      32767 < decVal ds → parse_imm (String.mk ds) = none) ∧
    parse_imm "0x80000000" = none := by
  refine ⟨fun ds hne hall hlo hhi => ?_, fun ds hne hall hlo => ?_, rfl⟩
  · have hws : ∀ c ∈ ('0' :: 'x' :: ds), Char.isWhitespace c = false := by
      intro c hc
      rcases List.mem_cons.mp hc with h0 | hc
      · rw [h0]; decide
      rcases List.mem_cons.mp hc with h0 | hc
      · rw [h0]; decide
      exact hexDig_not_ws (by simpa using List.all_eq_true.mp hall c hc)
    show parseImmChars (trimChars ('0' :: 'x' :: ds)) = _
    rw [trim_eq_self hws]
    unfold parseImmChars
    have hhex : hexStart ('0' :: 'x' :: ds) = true := by simp [hexStart]
    rw [if_pos hhex]
    show hexSide ds = _
    exact hexSide_of_big hne hall hlo hhi
  · have hws : ∀ c ∈ ds, Char.isWhitespace c = false := fun c hc =>
      decDigit_not_ws (by simpa using List.all_eq_true.mp hall c hc)
    show parseImmChars (trimChars ds) = _
    rw [trim_eq_self hws]
    unfold parseImmChars
    cases ds with
    | nil => exact absurd rfl hne
    | cons d r =>
      have hd : isDecDigit d = true := by
        simpa using List.all_eq_true.mp hall d (by simp)
      have hhex : hexStart (d :: r) = false := by
        cases r with
        | nil => rfl
        | cons d2 r2 =>
          have hd2 : isDecDigit d2 = true := by
            simpa using List.all_eq_true.mp hall d2 (by simp)
          simp [hexStart, decDigit_ne hd2 (by decide : isDecDigit 'x' = false),
            decDigit_ne hd2 (by decide : isDecDigit 'X' = false)]
      have hplus : plusStart (d :: r) = false := by
        simp [plusStart, decDigit_ne hd (by decide : isDecDigit '+' = false)]
      rw [if_neg (by simp [hhex]), if_neg (by simp [hplus])]
      exact parseDecI16_of_big hne hall hlo

/-- C6 witness: `0x1FFFF` (17 significant bits) parses without failure and
truncates to `-1`, while the decimal `40000` fails. -/
theorem C6_overflow_truncation_amended_witness :
    parse_imm (String.mk ('0' :: 'x' :: ['1', 'F', 'F', 'F', 'F'])) = some (-1) ∧
    parse_imm (String.mk ['4', '0', '0', '0', '0']) = none := by
  constructor
  · have h := C6_overflow_truncation_amended.1 ['1', 'F', 'F', 'F', 'F']
      (by decide) (by decide) (by decide) (by decide)
    rw [h]
    decide
  · exact C6_overflow_truncation_amended.2.1 ['4', '0', '0', '0', '0']
      (by decide) (by decide) (by decide)

/-- C9 witness: the word 64 has opcode 0 but is nonzero, and does not
decode to `halt`. -/
theorem C9_halt_zero_word_witness :
    assemble "halt" = Except.ok [0] ∧
    decode_instruction 0 = "halt" ∧
    decode_instruction 64 ≠ "halt" :=
  ⟨C9_halt_zero_word.1, C9_halt_zero_word.2.1,
    C9_halt_zero_word.2.2 64 (by decide) (by decide) (by decide)⟩

end Assembler
